import Mathlib

/-!
Shallow embedding of the contact-manager CLI (`src/main.py`) and proofs about
its field validators, records, address book, and command handlers.

Python strings are modelled as Lean `String` (sequences of Unicode code
points, matching Python's `len`/indexing semantics).  Python exceptions are
modelled with an explicit error type; the `@input_error` decorator becomes a
total translation from the exceptional result to the user-facing string.
Mutation of the address book is modelled by explicit state passing: each
handler returns its result string together with the (possibly mutated) book,
mirroring the in-place mutations of the source line by line.
-/

namespace Hw8

/-- Decidable equality on exceptional results, for concrete evaluation. -/
instance {ε α : Type} [DecidableEq ε] [DecidableEq α] : DecidableEq (Except ε α) :=
  fun a b =>
    match a, b with
    | .ok x, .ok y =>
      if h : x = y then .isTrue (by rw [h]) else .isFalse (by simp [h])
    | .error x, .error y =>
      if h : x = y then .isTrue (by rw [h]) else .isFalse (by simp [h])
    | .ok _, .error _ => .isFalse (by simp)
    | .error _, .ok _ => .isFalse (by simp)

/-! ## Characters and strings -/

/-- ASCII digit test by code point (`'0'` = 48 … `'9'` = 57). -/
def isAsciiDigit (c : Char) : Bool :=
  48 ≤ c.toNat && c.toNat ≤ 57

/-- Model of Python's per-character `str.isdigit` classification.  Besides the
ASCII digits it accepts the non-ASCII decimal digits exercised in this
development: the Arabic-Indic digits U+0660–U+0669 and the fullwidth digits
U+FF10–U+FF19.  (CPython additionally accepts further Unicode digit
characters; no string considered here contains any of those.) -/
def pyIsDigitChar (c : Char) : Bool :=
  isAsciiDigit c || (0x660 ≤ c.toNat && c.toNat ≤ 0x669) ||
    (0xFF10 ≤ c.toNat && c.toNat ≤ 0xFF19)

/-- Python `str.isdigit`: non-empty and every character a digit. -/
def pyIsDigit (s : String) : Bool :=
  !s.data.isEmpty && s.data.all pyIsDigitChar

/-- ASCII lowercasing of one character, as used by `str.lower` on the
command token (commands are ASCII, so the ASCII case suffices). -/
def lowerChar (c : Char) : Char :=
  if 65 ≤ c.toNat && c.toNat ≤ 90 then Char.ofNat (c.toNat + 32) else c

/-- `str.lower` on an ASCII command token. -/
def strLower (s : String) : String :=
  String.mk (s.data.map lowerChar)

/-- Whitespace characters recognised by Python `str.split()` (the ones that
can occur in an input line of this program). -/
def isPyWs (c : Char) : Bool :=
  c = ' ' || c = '\t' || c = '\n' || c = '\r'

/-- Worker for `pySplit`: accumulates the current token (reversed) and splits
on runs of whitespace, producing no empty tokens — Python `str.split()`. -/
def wsSplitGo : List Char → List Char → List (List Char)
  | acc, [] => if acc.isEmpty then [] else [acc.reverse]
  | acc, c :: cs =>
    if isPyWs c then
      if acc.isEmpty then wsSplitGo [] cs else acc.reverse :: wsSplitGo [] cs
    else
      wsSplitGo (c :: acc) cs

/-- Python `str.split()` with no argument: split on whitespace runs,
dropping empty tokens. -/
def pySplit (s : String) : List String :=
  (wsSplitGo [] s.data).map String.mk

/-- `sep.join(items)` from Python. -/
def joinSep (sep : String) : List String → String
  | [] => ""
  | [x] => x
  | x :: xs => x ++ sep ++ joinSep sep xs

/-! ## Dates

`datetime.date` values are triples of year/month/day, valid in the proleptic
Gregorian calendar with year in 1..9999. -/

/-- Gregorian leap-year test. -/
def isLeap (y : Nat) : Bool :=
  y % 4 = 0 && (y % 100 ≠ 0 || y % 400 = 0)

/-- Number of days in a month of a given year. -/
def daysInMonth (y m : Nat) : Nat :=
  if m = 2 then (if isLeap y then 29 else 28)
  else if m = 4 || m = 6 || m = 9 || m = 11 then 30
  else 31

/-- A calendar date as held by `datetime.date`. -/
structure Date where
  year : Nat
  month : Nat
  day : Nat
deriving DecidableEq

/-- Validity of a date, as enforced by the `datetime.date` constructor
(year 1..9999, month 1..12, day within the month). -/
def validDate (d : Date) : Bool :=
  1 ≤ d.year && d.year ≤ 9999 && 1 ≤ d.month && d.month ≤ 12 &&
    1 ≤ d.day && d.day ≤ daysInMonth d.year d.month

/-- Days in the years strictly before year `y` (proleptic Gregorian). -/
def daysBeforeYear (y : Nat) : Nat :=
  365 * (y - 1) + (y - 1) / 4 - (y - 1) / 100 + (y - 1) / 400

/-- Days in the months of year `y` strictly before month `m`. -/
def daysBeforeMonth (y m : Nat) : Nat :=
  ((List.range (m - 1)).map (fun i => daysInMonth y (i + 1))).sum

/-- Rata-die day number: `toRD ⟨1,1,1⟩ = 1`, matching
`datetime.date.toordinal`.  Differences of `toRD` values model
`(a - b).days` on dates. -/
def toRD (d : Date) : Nat :=
  daysBeforeYear d.year + daysBeforeMonth d.year d.month + d.day

/-- `date.weekday()`: Monday = 0 … Sunday = 6 (0001-01-01 was a Monday). -/
def weekdayOf (d : Date) : Nat :=
  (toRD d + 6) % 7

/-- `date` comparison `a < b` (lexicographic on year, month, day — the
value order of `datetime.date`). -/
def dateLt (a b : Date) : Bool :=
  a.year < b.year || (a.year = b.year &&
    (a.month < b.month || (a.month = b.month && a.day < b.day)))

/-- `d.replace(year = y)`: keeps month and day, validates the resulting
date, and fails (`ValueError`) if it is invalid — e.g. Feb 29 mapped into a
non-leap year. -/
def replaceYear (d : Date) (y : Nat) : Option Date :=
  let nd : Date := ⟨y, d.month, d.day⟩
  if validDate nd then some nd else none

/-- Signed day difference `(a - b).days`. -/
def deltaDays (a b : Date) : Int :=
  (toRD a : Int) - (toRD b : Int)

/-- The `bday` computation of `get_upcoming_birthdays`: replace the stored
birthday's year with the current year, and if the result has already
passed, move it to the next year.  `none` models the `ValueError` raised by
`date.replace` on an invalid combination (Feb 29 in a non-leap year). -/
def nextOccurrence (b today : Date) : Option Date :=
  match replaceYear b today.year with
  | none => none
  | some bd => if dateLt bd today then replaceYear bd (today.year + 1) else some bd

/-! ## Parsing and rendering `DD.MM.YYYY` -/

/-- Numeric value of a list of ASCII digit characters. -/
def natOfDigits (cs : List Char) : Nat :=
  cs.foldl (fun a c => 10 * a + (c.toNat - 48)) 0

/-- The ASCII digit character for `d ≤ 9`. -/
def digitChar (d : Nat) : Char :=
  Char.ofNat (48 + d)

/-- Split a character list on `'.'` (the separators of the `%d.%m.%Y`
pattern); always returns at least one (possibly empty) part. -/
def splitOnDot : List Char → List (List Char)
  | [] => [[]]
  | c :: cs =>
    let r := splitOnDot cs
    if c = '.' then [] :: r
    else
      match r with
      | t :: ts => (c :: t) :: ts
      | [] => [[c]]

/-- Re-join parts with `'.'`; inverse of `splitOnDot`. -/
def joinParts : List (List Char) → List Char
  | [] => []
  | [a] => a
  | a :: rest => a ++ '.' :: joinParts rest

/-- One strptime `%d`/`%m` field: one or two ASCII digits with value in
`1..hi` (the CPython field regexes `3[01]|[12]\d|0[1-9]|[1-9]` and
`1[0-2]|0[1-9]|[1-9]` accept exactly these tokens). -/
def parseField2 (cs : List Char) (hi : Nat) : Option Nat :=
  if (cs.length = 1 || cs.length = 2) && cs.all isAsciiDigit then
    let v := natOfDigits cs
    if 1 ≤ v && v ≤ hi then some v else none
  else none

/-- One strptime `%Y` field: exactly four ASCII digits. -/
def parseField4 (cs : List Char) : Option Nat :=
  if cs.length = 4 && cs.all isAsciiDigit then some (natOfDigits cs) else none

/-- The field-and-calendar stage of `strptime("%d.%m.%Y")` once the input
has been cut at the dots: day ≤ 31, month ≤ 12, four-digit year, then the
`datetime` constructor validates the calendar date (and year ≥ 1). -/
def parseDMYparts (ds ms ys : List Char) : Option Date :=
  match parseField2 ds 31, parseField2 ms 12, parseField4 ys with
  | some d, some m, some y =>
    if 1 ≤ y && d ≤ daysInMonth y m then some ⟨y, m, d⟩ else none
  | _, _, _ => none

/-- `datetime.strptime(s, "%d.%m.%Y").date()` on an ASCII-digit input:
exactly three dot-separated fields, then `parseDMYparts`. -/
def parseDMY (cs : List Char) : Option Date :=
  match splitOnDot cs with
  | [ds, ms, ys] => parseDMYparts ds ms ys
  | _ => none

/-- Two-digit zero-padded rendering (`%d`, `%m`) for values below 100. -/
def pad2 (n : Nat) : List Char :=
  [digitChar (n / 10), digitChar (n % 10)]

/-- Four-digit rendering of a year in 1000..9999. -/
def render4 (y : Nat) : List Char :=
  [digitChar (y / 1000), digitChar (y / 100 % 10),
   digitChar (y / 10 % 10), digitChar (y % 10)]

/-- `%Y` rendering.  For years below 1000 glibc prints the bare decimal
value (platform-dependent padding); every date in this development has a
four-digit year. -/
def renderY (y : Nat) : List Char :=
  if y < 1000 then (Nat.repr y).data else render4 y

/-- `date.strftime("%d.%m.%Y")`, the `__str__` of `Birthday`. -/
def renderDMY (d : Date) : String :=
  String.mk (pad2 d.day ++ '.' :: pad2 d.month ++ '.' :: renderY d.year)

/-! ## Field validators, records, address book -/

/-- The exception kinds caught by the `@input_error` decorator.  A
`ValueError` carries its message (`str(ve)` is returned to the user). -/
inductive PyErr where
  | keyError : PyErr
  | valueError : String → PyErr
  | indexError : PyErr
deriving DecidableEq

/-- `Phone.__init__`: accepted iff `value.isdigit() and len(value) == 10`. -/
def validPhone (s : String) : Bool :=
  pyIsDigit s && s.data.length = 10

/-- Constructing a `Phone`: the validated value, or the `ValueError` raised
by `Phone.__init__`. -/
def mkPhone (value : String) : Except PyErr String :=
  if validPhone value then .ok value
  else .error (.valueError "Phone number must consist of exactly 10 digits.")

/-- Constructing a `Birthday`: `strptime` parse or the translated
`ValueError`. -/
def mkBirthday (value : String) : Except PyErr Date :=
  match parseDMY value.data with
  | some d => .ok d
  | none => .error (.valueError "Invalid date format. Use DD.MM.YYYY")

/-- One contact: validated name, ordered phone list (each entry the `value`
of a validated `Phone`), optional birthday. -/
structure Record where
  name : String
  phones : List String
  birthday : Option Date
deriving DecidableEq

/-- `Record.__init__`, including the `Name` validation (`ValueError` on an
empty name). -/
def mkRecord (name : String) : Except PyErr Record :=
  if name = "" then .error (.valueError "Name cannot be empty.")
  else .ok ⟨name, [], none⟩

/-- `Record.add_phone`: validate, then append. -/
def Record.add_phone (r : Record) (phone : String) : Except PyErr Record :=
  (mkPhone phone).map fun v => { r with phones := r.phones ++ [v] }

/-- Remove the first occurrence of `x`, if any (`Record.remove_phone`). -/
def eraseFirst : List String → String → List String
  | [], _ => []
  | p :: ps, x => if p = x then ps else p :: eraseFirst ps x

/-- `Record.remove_phone`: drop the first matching phone, silently no-op
when absent. -/
def Record.remove_phone (r : Record) (phone : String) : Record :=
  { r with phones := eraseFirst r.phones phone }

/-- Index of the first element equal to `x`. -/
def firstIdx (x : String) : List String → Option Nat
  | [] => none
  | p :: ps => if p = x then some 0 else (firstIdx x ps).map (· + 1)

/-- Worker for `Record.edit_phone`: walk the list, and at the first phone
equal to `old` construct `Phone(new)` (possibly raising) and put it at that
position; past the first match (or when there is none) the list is
unchanged. -/
def editList (old new : String) : List String → Except PyErr (List String)
  | [] => .ok []
  | p :: ps =>
    if p = old then (mkPhone new).map (· :: ps)
    else (editList old new ps).map (p :: ·)

/-- `Record.edit_phone`. -/
def Record.edit_phone (r : Record) (old new : String) : Except PyErr Record :=
  (editList old new r.phones).map fun ps => { r with phones := ps }

/-- Worker for `Record.find_phone`: first stored phone equal to the query,
else the empty-string sentinel. -/
def findPhoneGo : List String → String → String
  | [], _ => ""
  | p :: ps, x => if p = x then p else findPhoneGo ps x

/-- `Record.find_phone`. -/
def Record.find_phone (r : Record) (phone : String) : String :=
  findPhoneGo r.phones phone

/-- `Record.add_birthday`: parse (possibly raising), then replace the
stored birthday. -/
def Record.add_birthday (r : Record) (s : String) : Except PyErr Record :=
  (mkBirthday s).map fun d => { r with birthday := some d }

/-- The address book: the underlying `UserDict` data, an insertion-ordered
association list from contact name to record (Python dicts preserve
insertion order; updating an existing key keeps its position). -/
structure AddressBook where
  data : List (String × Record)
deriving DecidableEq

/-- `self.data[k] = r` on a Python dict: replace the value at the first
(only) occurrence of `k`, keeping its position, or append a new entry. -/
def setKey : List (String × Record) → String → Record → List (String × Record)
  | [], k, r => [(k, r)]
  | (k', r') :: rest, k, r =>
    if k' = k then (k, r) :: rest else (k', r') :: setKey rest k r

/-- `self.data.get(name)`. -/
def getKey : List (String × Record) → String → Option Record
  | [], _ => none
  | (k, r) :: rest, n => if k = n then some r else getKey rest n

/-- `del self.data[name]` guarded by `if name in self.data`. -/
def delKey : List (String × Record) → String → List (String × Record)
  | [], _ => []
  | (k, r) :: rest, n => if k = n then rest else (k, r) :: delKey rest n

/-- `AddressBook.add_record`: keyed by the record's name. -/
def AddressBook.add_record (book : AddressBook) (r : Record) : AddressBook :=
  ⟨setKey book.data r.name r⟩

/-- `AddressBook.find`. -/
def AddressBook.find (book : AddressBook) (name : String) : Option Record :=
  getKey book.data name

/-- `AddressBook.delete`. -/
def AddressBook.delete (book : AddressBook) (name : String) : AddressBook :=
  ⟨delKey book.data name⟩

/-- `self.data.values()` in insertion order. -/
def AddressBook.values (book : AddressBook) : List Record :=
  book.data.map Prod.snd

/-- The per-record inclusion test that `get_upcoming_birthdays` actually
performs: the unadjusted delta from today to the next occurrence lies in
`0..7`. -/
def upcomingPred (today : Date) (r : Record) : Bool :=
  match r.birthday with
  | none => false
  | some b =>
    match nextOccurrence b today with
    | none => false
    | some bd => decide (0 ≤ deltaDays bd today) && decide (deltaDays bd today ≤ 7)

/-- Loop body of `get_upcoming_birthdays` over the records in iteration
order.  For each record with a birthday: compute the next occurrence
(`date.replace` may raise, which aborts the whole call), take the day delta
*before* the weekend adjustment, compute the weekend-shifted greeting date
(a local value the source never reads again), and collect the record iff
`0 <= delta <= 7`. -/
def upcomingGo (today : Date) : List Record → Except String (List Record)
  | [] => .ok []
  | r :: rs =>
    match r.birthday with
    | none => upcomingGo today rs
    | some b =>
      match nextOccurrence b today with
      | none => .error "day is out of range for month"
      | some bd =>
        let delta : Int := deltaDays bd today
        -- `bday += timedelta(...)` for weekends: computed, never read after.
        let _bdayShifted : Nat :=
          toRD bd + (if weekdayOf bd = 5 then 2 else if weekdayOf bd = 6 then 1 else 0)
        match upcomingGo today rs with
        | .error e => .error e
        | .ok rest => .ok (if 0 ≤ delta ∧ delta ≤ 7 then r :: rest else rest)

/-- `AddressBook.get_upcoming_birthdays`, with `date.today()` passed
explicitly.  The error case models the uncaught `ValueError` from
`date.replace`. -/
def getUpcomingBirthdays (book : AddressBook) (today : Date) :
    Except String (List Record) :=
  upcomingGo today book.values

/-! ## Command handlers -/

/-- The `@input_error` decorator: translate each caught exception kind to
its user-facing string. -/
def handleInputError : Except PyErr String → String
  | .ok s => s
  | .error .keyError => "Contact not found."
  | .error (.valueError m) => m
  | .error .indexError => "Insufficient arguments provided."

/-- Body of `add_contact` before the decorator.  `name, phone, *_ = args`
raises `ValueError` (with CPython's unpacking message) on fewer than two
arguments.  The record is created and inserted *before* the phone is
validated, so a failing `Phone` validation leaves the new record in the
book. -/
def addContactRaw (args : List String) (book : AddressBook) :
    Except PyErr String × AddressBook :=
  match args with
  | name :: phone :: _ =>
    (match AddressBook.find book name with
     | some r =>
       if phone = "" then (.ok "Contact updated.", book)
       else
         match mkPhone phone with
         | .ok v =>
           (.ok "Contact updated.", ⟨setKey book.data name { r with phones := r.phones ++ [v] }⟩)
         | .error e => (.error e, book)
     | none =>
       match mkRecord name with
       | .error e => (.error e, book)
       | .ok r0 =>
         let book1 := AddressBook.add_record book r0
         if phone = "" then (.ok "Contact added.", book1)
         else
           match mkPhone phone with
           | .ok v =>
             (.ok "Contact added.", ⟨setKey book1.data name { r0 with phones := [v] }⟩)
           | .error e => (.error e, book1))
  | _ =>
    (.error (.valueError ("not enough values to unpack (expected at least 2, got "
      ++ toString args.length ++ ")")), book)

/-- `add_contact` as seen by the loop: decorated body, plus the book state
it leaves behind. -/
def add_contact (args : List String) (book : AddressBook) : String × AddressBook :=
  let (res, b) := addContactRaw args book
  (handleInputError res, b)

/-- Body of `change_contact`: `name, old_phone, new_phone = args` is an
exact three-way unpacking. -/
def changeContactRaw (args : List String) (book : AddressBook) :
    Except PyErr String × AddressBook :=
  match args with
  | [name, old_phone, new_phone] =>
    (match AddressBook.find book name with
     | none => (.ok "Contact not found.", book)
     | some r =>
       match Record.edit_phone r old_phone new_phone with
       | .ok r1 => (.ok "Contact updated.", ⟨setKey book.data name r1⟩)
       | .error e => (.error e, book))
  | _ =>
    if args.length < 3 then
      (.error (.valueError ("not enough values to unpack (expected 3, got "
        ++ toString args.length ++ ")")), book)
    else (.error (.valueError "too many values to unpack (expected 3)"), book)

/-- `change_contact` as seen by the loop. -/
def change_contact (args : List String) (book : AddressBook) : String × AddressBook :=
  let (res, b) := changeContactRaw args book
  (handleInputError res, b)

/-- `show_phone` (read-only): `args[0]` raises `IndexError` when empty. -/
def show_phone (args : List String) (book : AddressBook) : String :=
  handleInputError
    (match args with
     | [] => .error .indexError
     | name :: _ =>
       match AddressBook.find book name with
       | none => .ok "Contact not found."
       | some r =>
         .ok (if r.phones.isEmpty then "No phone numbers found."
              else joinSep "; " r.phones))

/-- Body of the `add_birthday` handler: exact two-way unpacking, lookup,
then `Record.add_birthday` (whose `ValueError` the decorator catches). -/
def addBirthdayRaw (args : List String) (book : AddressBook) :
    Except PyErr String × AddressBook :=
  match args with
  | [name, birthday_str] =>
    (match AddressBook.find book name with
     | none => (.ok "Contact not found.", book)
     | some r =>
       match Record.add_birthday r birthday_str with
       | .ok r1 => (.ok "Birthday added.", ⟨setKey book.data name r1⟩)
       | .error e => (.error e, book))
  | _ =>
    if args.length < 2 then
      (.error (.valueError ("not enough values to unpack (expected 2, got "
        ++ toString args.length ++ ")")), book)
    else (.error (.valueError "too many values to unpack (expected 2)"), book)

/-- The `add_birthday` handler as seen by the loop. -/
def add_birthday (args : List String) (book : AddressBook) : String × AddressBook :=
  let (res, b) := addBirthdayRaw args book
  (handleInputError res, b)

/-- `show_birthday` (read-only). -/
def show_birthday (args : List String) (book : AddressBook) : String :=
  handleInputError
    (match args with
     | [] => .error .indexError
     | name :: _ =>
       match AddressBook.find book name with
       | none => .ok "Contact not found."
       | some r =>
         .ok (match r.birthday with
              | some d => renderDMY d
              | none => "Birthday not set."))

/-- The `birthdays` handler.  Unlike the other fallible handlers it is NOT
wrapped in `@input_error`, so the `ValueError` that
`get_upcoming_birthdays` can raise propagates to the caller — modelled by
the `Except.error` result. -/
def birthdays (args : List String) (book : AddressBook) (today : Date) :
    Except String String :=
  match getUpcomingBirthdays book today with
  | .error e => .error e
  | .ok [] => .ok "No upcoming birthdays."
  | .ok l =>
    .ok (joinSep "\n" (l.map fun r =>
      r.name ++ ": " ++
        (match r.birthday with
         | some d => renderDMY d
         | none => "Not set")))

/-- `parse_input`: split the line on whitespace; the first token, lowered,
is the command (`.strip()` on a split token is the identity); the remaining
tokens are the arguments, unchanged. -/
def parse_input (user_input : String) : String × List String :=
  match pySplit user_input with
  | [] => ("", [])
  | c :: args => (strLower c, args)

/-! ## Spec-side definitions (for comparison with the source behaviour) -/

/-- The phone acceptance condition exactly as the spec words it: non-empty,
all-ASCII-digit, length exactly 10.  Kept separate from the source-derived
`validPhone` so the two can be compared. -/
def specPhoneAscii (s : String) : Bool :=
  !s.data.isEmpty && s.data.all isAsciiDigit && s.data.length = 10

/-- Canonical-form test on the three dot-separated parts: two-digit day,
two-digit month, four-digit year without a leading zero. -/
def isCanonicalParts (ds ms ys : List Char) : Bool :=
  ds.length = 2 && ms.length = 2 && ys.length = 4 &&
    (match ys with
     | c :: _ => decide (c ≠ '0')
     | [] => false)

/-- A date string in the zero-padded canonical form the renderer
produces. -/
def isCanonicalDMY (s : String) : Bool :=
  match splitOnDot s.data with
  | [ds, ms, ys] => isCanonicalParts ds ms ys
  | _ => false

/-- Invariant: every phone stored in a record satisfies the 10-digit
constraint. -/
def RecordValid (r : Record) : Prop :=
  ∀ p ∈ r.phones, validPhone p = true

/-- Invariant: every phone stored in any record of the book satisfies the
10-digit constraint. -/
def BookValid (book : AddressBook) : Prop :=
  ∀ r ∈ book.values, RecordValid r

instance (r : Record) : Decidable (RecordValid r) := by
  unfold RecordValid
  infer_instance

instance (book : AddressBook) : Decidable (BookValid book) := by
  unfold BookValid RecordValid
  infer_instance

/-! ## Dictionary lemmas -/

theorem getKey_setKey_self (data : List (String × Record)) (k : String) (r : Record) :
    getKey (setKey data k r) k = some r := by
  induction data with
  | nil => simp [setKey, getKey]
  | cons hd tl ih =>
    obtain ⟨k', r'⟩ := hd
    by_cases h : k' = k
    · simp [setKey, getKey, h]
    · simp [setKey, getKey, h, ih]

theorem getKey_setKey_ne (data : List (String × Record)) (k n : String) (r : Record)
    (h : k ≠ n) : getKey (setKey data k r) n = getKey data n := by
  induction data with
  | nil => simp [setKey, getKey, h]
  | cons hd tl ih =>
    obtain ⟨k', r'⟩ := hd
    by_cases hk : k' = k
    · subst hk
      simp [setKey, getKey, h]
    · by_cases hn : k' = n
      · subst hn
        simp [setKey, getKey, hk, Ne.symm h]
      · simp [setKey, getKey, hk, hn, ih]

/-- A valid phone value is never the empty string (it has ten characters). -/
theorem validPhone_ne_empty {p : String} (h : validPhone p = true) : p ≠ "" := by
  intro he
  subst he
  exact absurd h (by decide)

/-- A successful `Phone` construction returns exactly the validated input. -/
theorem mkPhone_ok_eq {s v : String} (h : mkPhone s = .ok v) :
    v = s ∧ validPhone s = true := by
  unfold mkPhone at h
  by_cases hv : validPhone s
  · rw [if_pos hv] at h
    cases h
    exact ⟨rfl, hv⟩
  · rw [if_neg hv] at h
    cases h

/-- The found-record branch of `add_contact` with a valid phone: message
"Contact updated." and the phone appended to the existing record. -/
theorem addContactRaw_found (bk : AddressBook) (name q : String) (r : Record)
    (hf : AddressBook.find bk name = some r) (hq : validPhone q = true) :
    addContactRaw [name, q] bk =
      (.ok "Contact updated.",
        ⟨setKey bk.data name { r with phones := r.phones ++ [q] }⟩) := by
  simp [addContactRaw, hf, mkPhone, hq, validPhone_ne_empty hq]

/-- The new-record branch of `add_contact` with a valid phone: message
"Contact added.", the empty record inserted, then overwritten with the
one-phone record. -/
theorem addContactRaw_new (bk : AddressBook) (name q : String)
    (hname : name ≠ "") (hf : AddressBook.find bk name = none)
    (hq : validPhone q = true) :
    addContactRaw [name, q] bk =
      (.ok "Contact added.",
        ⟨setKey (setKey bk.data name ⟨name, [], none⟩) name ⟨name, [q], none⟩⟩) := by
  simp [addContactRaw, hf, mkRecord, hname, mkPhone, hq, validPhone_ne_empty hq,
    AddressBook.add_record]

/-! ## Claim C2 -/

/-- C2: the claim that every handler converts its errors into a result
string fails on the code.  The `birthdays` handler is the one fallible
handler not wrapped in `@input_error`, and for a book holding a Feb 29
birthday while the current year is not a leap year, `date.replace` inside
`get_upcoming_birthdays` raises `ValueError("day is out of range for
month")`, which escapes the handler (and would crash the command loop)
instead of being returned as a string. -/
theorem birthdays_feb29_valueerror_escapes :
    birthdays [] ⟨[("Mark", ⟨"Mark", [], some ⟨2024, 2, 29⟩⟩)]⟩ ⟨2023, 6, 15⟩ =
      .error "day is out of range for month" := by decide

/-! ## Claim C3 -/

/-- C3 counterexample: `add_contact([], book)` does not return
"Insufficient arguments provided.".  The starred unpacking
`name, phone, *_ = args` raises `ValueError`, which the decorator's
`ValueError` branch converts to the exception's own message. -/
theorem add_contact_empty_args_cex :
    (add_contact [] ⟨[]⟩).1 = "not enough values to unpack (expected at least 2, got 0)" ∧
    (add_contact [] ⟨[]⟩).1 ≠ "Insufficient arguments provided." := by decide

/-- C3 (amended): for every book, `add_contact` with an empty argument
list returns the CPython unpacking message "not enough values to unpack
(expected at least 2, got 0)" and leaves the book unchanged; the
argument-count (`IndexError`) message "Insufficient arguments provided."
is not produced, because tuple unpacking raises `ValueError`. -/
theorem add_contact_empty_args_unpack_message (book : AddressBook) :
    add_contact [] book =
      ("not enough values to unpack (expected at least 2, got 0)", book) := rfl

/-! ## Claim C4 -/

/-- C4 counterexample: a string of ten Arabic-Indic digits is accepted by
`Phone` (Python's `str.isdigit` is not restricted to ASCII), although the
spec's all-ASCII-digit condition rejects it — so "succeeds iff non-empty,
all ASCII digits, length 10" is false in the only-if direction. -/
theorem phone_accepts_nonascii_digits_cex :
    mkPhone "٠١٢٣٤٥٦٧٨٩" = .ok "٠١٢٣٤٥٦٧٨٩" ∧
    specPhoneAscii "٠١٢٣٤٥٦٧٨٩" = false := by decide

/-- C4 (amended): `Phone(value)` succeeds iff `value` has exactly 10
characters, all of which are digits in the sense of Python's
`str.isdigit` (ASCII digits or other Unicode decimal digits); otherwise it
fails with the validation error.  `Phone("1234567890")` succeeds while
`Phone("123")` and `Phone("12345678ab")` fail. -/
theorem phone_validation_follows_pyisdigit :
    (∀ s : String, mkPhone s = .ok s ↔ (pyIsDigit s = true ∧ s.data.length = 10)) ∧
    mkPhone "1234567890" = .ok "1234567890" ∧
    mkPhone "123" = .error (.valueError "Phone number must consist of exactly 10 digits.") ∧
    mkPhone "12345678ab" =
      .error (.valueError "Phone number must consist of exactly 10 digits.") := by
  refine ⟨fun s => ?_, by decide, by decide, by decide⟩
  unfold mkPhone validPhone
  by_cases h1 : pyIsDigit s <;> by_cases h2 : s.data.length = 10 <;> simp [h1, h2]

/-! ## Claim C9 -/

/-- C9 counterexample: with the empty name (which the claim's "every name
not present" includes), `add_contact` fails in the `Name` validator before
the record is inserted: it returns "Name cannot be empty." — not the phone
validation message — and the book is left unchanged, with no record for
the name. -/
theorem add_contact_empty_name_cex :
    AddressBook.find ⟨[]⟩ "" = none ∧
    ("123" : String) ≠ "" ∧ validPhone "123" = false ∧
    add_contact ["", "123"] ⟨[]⟩ = ("Name cannot be empty.", ⟨[]⟩) ∧
    ("Name cannot be empty." : String) ≠ "Phone number must consist of exactly 10 digits." := by
  decide

/-- C9 (amended): for every book and every *non-empty* name not present in
it, `add_contact([name, p], book)` with `p` a non-empty invalid phone
returns the phone validation message, yet the book has been mutated: it
now holds a record for `name` with an empty phone list, because the record
is created and inserted before the phone is validated. -/
theorem add_contact_nonatomic_on_invalid_phone (book : AddressBook) (name p : String)
    (hname : name ≠ "") (habs : AddressBook.find book name = none)
    (hp : p ≠ "") (hpv : validPhone p = false) :
    add_contact [name, p] book =
      ("Phone number must consist of exactly 10 digits.",
        AddressBook.add_record book ⟨name, [], none⟩) ∧
    AddressBook.find (add_contact [name, p] book).2 name = some ⟨name, [], none⟩ := by
  have hbody : addContactRaw [name, p] book =
      (.error (.valueError "Phone number must consist of exactly 10 digits."),
        AddressBook.add_record book ⟨name, [], none⟩) := by
    simp [addContactRaw, habs, mkRecord, hname, mkPhone, hpv, hp,
      AddressBook.add_record]
  constructor
  · unfold add_contact
    rw [hbody]
    rfl
  · show AddressBook.find (addContactRaw [name, p] book).2 name = _
    rw [hbody]
    exact getKey_setKey_self book.data name ⟨name, [], none⟩

/-! ## Claim C5 -/

/-- C5: for the `add` command with a non-empty name token and arguments
`[name, phone]`: when no record for `name` exists, a record is created and
"Contact added." returned; when one exists, it is reused and "Contact
updated." returned; in both cases the valid phone is appended, so two
successive calls with different valid phones leave the record holding both
phones.  (The name hypothesis reflects that command arguments are
whitespace-split tokens and hence non-empty.) -/
theorem add_contact_add_then_update (book : AddressBook) (name p1 p2 : String)
    (hname : name ≠ "") (h1 : validPhone p1 = true) (h2 : validPhone p2 = true) :
    (AddressBook.find book name = none →
      (add_contact [name, p1] book).1 = "Contact added." ∧
      AddressBook.find (add_contact [name, p1] book).2 name = some ⟨name, [p1], none⟩ ∧
      (add_contact [name, p2] (add_contact [name, p1] book).2).1 = "Contact updated." ∧
      AddressBook.find (add_contact [name, p2] (add_contact [name, p1] book).2).2 name
        = some ⟨name, [p1, p2], none⟩) ∧
    (∀ r : Record, AddressBook.find book name = some r →
      (add_contact [name, p1] book).1 = "Contact updated." ∧
      AddressBook.find (add_contact [name, p1] book).2 name
        = some { r with phones := r.phones ++ [p1] }) := by
  constructor
  · intro habs
    have e1 := addContactRaw_new book name p1 hname habs h1
    have find1 : AddressBook.find (add_contact [name, p1] book).2 name
        = some ⟨name, [p1], none⟩ := by
      show AddressBook.find (addContactRaw [name, p1] book).2 name = _
      rw [e1]
      exact getKey_setKey_self _ name ⟨name, [p1], none⟩
    have e2 := addContactRaw_found (add_contact [name, p1] book).2 name p2
      ⟨name, [p1], none⟩ find1 h2
    refine ⟨?_, find1, ?_, ?_⟩
    · show handleInputError (addContactRaw [name, p1] book).1 = _
      rw [e1]
      rfl
    · show handleInputError
        (addContactRaw [name, p2] (add_contact [name, p1] book).2).1 = _
      rw [e2]
      rfl
    · show AddressBook.find
        (addContactRaw [name, p2] (add_contact [name, p1] book).2).2 name = _
      rw [e2]
      exact getKey_setKey_self _ name ⟨name, [p1, p2], none⟩
  · intro r hf
    have e := addContactRaw_found book name p1 r hf h1
    constructor
    · show handleInputError (addContactRaw [name, p1] book).1 = _
      rw [e]
      rfl
    · show AddressBook.find (addContactRaw [name, p1] book).2 name = _
      rw [e]
      exact getKey_setKey_self _ name { r with phones := r.phones ++ [p1] }

/-- C5 witness: the theorem applied to the empty book, name "Alice", and
phones "1234567890" then "0987654321". -/
theorem add_contact_add_then_update_witness :
    (add_contact ["Alice", "1234567890"] ⟨[]⟩).1 = "Contact added." ∧
    AddressBook.find (add_contact ["Alice", "1234567890"] ⟨[]⟩).2 "Alice"
      = some ⟨"Alice", ["1234567890"], none⟩ ∧
    (add_contact ["Alice", "0987654321"] (add_contact ["Alice", "1234567890"] ⟨[]⟩).2).1
      = "Contact updated." ∧
    AddressBook.find
      (add_contact ["Alice", "0987654321"]
        (add_contact ["Alice", "1234567890"] ⟨[]⟩).2).2 "Alice"
      = some ⟨"Alice", ["1234567890", "0987654321"], none⟩ :=
  (add_contact_add_then_update ⟨[]⟩ "Alice" "1234567890" "0987654321"
    (by decide) (by decide) (by decide)).1 (by decide)

/-- C9 witness: the amended theorem applied at a concrete book and
arguments. -/
theorem add_contact_nonatomic_witness :
    add_contact ["Alice", "123"] ⟨[]⟩ =
      ("Phone number must consist of exactly 10 digits.",
        AddressBook.add_record ⟨[]⟩ ⟨"Alice", [], none⟩) ∧
    AddressBook.find (add_contact ["Alice", "123"] ⟨[]⟩).2 "Alice" =
      some ⟨"Alice", [], none⟩ :=
  add_contact_nonatomic_on_invalid_phone ⟨[]⟩ "Alice" "123"
    (by decide) (by decide) (by decide) (by decide)

/-! ## Claim C6 -/

theorem editList_not_found (old new : String) (ps : List String)
    (h : firstIdx old ps = none) : editList old new ps = .ok ps := by
  induction ps with
  | nil => rfl
  | cons p ps ih =>
    by_cases hp : p = old
    · simp [firstIdx, hp] at h
    · simp only [firstIdx, if_neg hp, Option.map_eq_none'] at h
      simp [editList, hp, ih h, Except.map]

theorem editList_found_valid (old new : String) (ps : List String) (i : Nat)
    (hi : firstIdx old ps = some i) (hv : validPhone new = true) :
    editList old new ps = .ok (ps.set i new) := by
  induction ps generalizing i with
  | nil => simp [firstIdx] at hi
  | cons p ps ih =>
    by_cases hp : p = old
    · have hz : i = 0 := by
        simp [firstIdx, hp] at hi
        omega
      subst hz
      simp [editList, hp, mkPhone, hv, Except.map]
    · simp only [firstIdx, if_neg hp, Option.map_eq_some'] at hi
      obtain ⟨j, hj, rfl⟩ := hi
      simp [editList, hp, ih j hj, Except.map]

theorem editList_found_invalid (old new : String) (ps : List String) (i : Nat)
    (hi : firstIdx old ps = some i) (hv : validPhone new = false) :
    editList old new ps =
      .error (.valueError "Phone number must consist of exactly 10 digits.") := by
  induction ps generalizing i with
  | nil => simp [firstIdx] at hi
  | cons p ps ih =>
    by_cases hp : p = old
    · simp [editList, hp, mkPhone, hv, Except.map]
    · simp only [firstIdx, if_neg hp, Option.map_eq_some'] at hi
      obtain ⟨j, hj, rfl⟩ := hi
      simp [editList, hp, ih j hj, Except.map]

theorem editList_ok_not_mem (old new : String) (ps qs : List String)
    (hok : editList old new ps = .ok qs)
    (hcount : ps.countP (fun x => x = old) ≤ 1) (hne : new ≠ old) :
    old ∉ qs := by
  induction ps generalizing qs with
  | nil =>
    cases hok
    simp
  | cons p ps ih =>
    by_cases hp : p = old
    · simp only [editList, hp, if_pos rfl] at hok
      rcases hmk : mkPhone new with e | v
      · rw [hmk] at hok
        cases hok
      · rw [hmk] at hok
        cases hok
        obtain ⟨rfl, -⟩ := mkPhone_ok_eq hmk
        have hzero : ps.countP (fun x => x = old) = 0 := by
          have hstep : (p :: ps).countP (fun x => x = old)
              = ps.countP (fun x => x = old) + 1 := by
            simp [List.countP_cons, hp]
          omega
        intro hmem
        rcases List.mem_cons.mp hmem with h1 | h2
        · exact hne h1.symm
        · have := List.countP_eq_zero.mp hzero old h2
          simp at this
    · simp only [editList, hp, if_false, if_neg hp] at hok
      rcases he : editList old new ps with e | qs1
      · rw [he] at hok
        cases hok
      · rw [he] at hok
        cases hok
        have hcount1 : ps.countP (fun x => x = old) ≤ 1 := by
          have hstep : (p :: ps).countP (fun x => x = old)
              = ps.countP (fun x => x = old) := by
            simp [List.countP_cons, hp]
          omega
        intro hmem
        rcases List.mem_cons.mp hmem with h1 | h2
        · exact hp h1.symm
        · exact ih qs1 he hcount1 h2

theorem findPhoneGo_not_mem (ps : List String) (x : String) (h : x ∉ ps) :
    findPhoneGo ps x = "" := by
  induction ps with
  | nil => rfl
  | cons p ps ih =>
    have h1 : x ≠ p := fun e => h (e ▸ List.mem_cons_self p ps)
    have h2 : x ∉ ps := fun m => h (List.mem_cons_of_mem p m)
    simp [findPhoneGo, Ne.symm h1, ih h2]

/-- C6 counterexample: when no phone equals `old`, `edit_phone` never
validates `new`, so it succeeds (as a no-op) even for an invalid new
phone — contradicting "it fails whenever new is an invalid phone". -/
theorem edit_phone_no_validation_when_absent_cex :
    validPhone "123" = false ∧
    Record.edit_phone ⟨"Alice", ["1234567890"], none⟩ "0987654321" "123" =
      .ok ⟨"Alice", ["1234567890"], none⟩ := by decide

/-- C6 (amended): `edit_phone(old, new)` replaces the first phone equal to
`old`, at the same list position, with a newly validated `Phone(new)`; it
is a no-op — with no validation of `new`, hence no failure — when no phone
equals `old`; it fails with the phone validation error precisely when some
phone equals `old` and `new` is invalid; and after a successful call,
`find_phone(old)` returns the empty-string sentinel provided `old`
occurred at most once in the list and `new ≠ old` (with duplicates of
`old`, or `new = old`, a phone equal to `old` remains). -/
theorem edit_phone_first_match_semantics (r : Record) (old new : String) :
    (firstIdx old r.phones = none → Record.edit_phone r old new = .ok r) ∧
    (∀ i, firstIdx old r.phones = some i → validPhone new = true →
      Record.edit_phone r old new = .ok { r with phones := r.phones.set i new }) ∧
    (∀ i, firstIdx old r.phones = some i → validPhone new = false →
      Record.edit_phone r old new =
        .error (.valueError "Phone number must consist of exactly 10 digits.")) ∧
    (∀ r1 : Record, Record.edit_phone r old new = .ok r1 →
      r.phones.countP (fun x => x = old) ≤ 1 → new ≠ old →
      Record.find_phone r1 old = "") := by
  refine ⟨fun h => ?_, fun i hi hv => ?_, fun i hi hv => ?_, fun r1 hok hc hne => ?_⟩
  · unfold Record.edit_phone
    rw [editList_not_found old new r.phones h]
    rfl
  · unfold Record.edit_phone
    rw [editList_found_valid old new r.phones i hi hv]
    rfl
  · unfold Record.edit_phone
    rw [editList_found_invalid old new r.phones i hi hv]
    rfl
  · unfold Record.edit_phone at hok
    rcases he : editList old new r.phones with e | qs
    · rw [he] at hok
      cases hok
    · rw [he] at hok
      cases hok
      exact findPhoneGo_not_mem qs old (editList_ok_not_mem old new r.phones qs he hc hne)

/-- C6 witness: replacement branch and sentinel branch of the theorem at a
concrete record. -/
theorem edit_phone_first_match_semantics_witness :
    Record.edit_phone ⟨"Alice", ["1234567890"], none⟩ "1234567890" "0987654321" =
      .ok ⟨"Alice", ["0987654321"], none⟩ ∧
    Record.find_phone ⟨"Alice", ["0987654321"], none⟩ "1234567890" = "" := by
  have h := edit_phone_first_match_semantics
    ⟨"Alice", ["1234567890"], none⟩ "1234567890" "0987654321"
  have h2 : Record.edit_phone ⟨"Alice", ["1234567890"], none⟩ "1234567890" "0987654321" =
      .ok ⟨"Alice", ["0987654321"], none⟩ :=
    h.2.1 0 (by decide) (by decide)
  exact ⟨h2, h.2.2.2 ⟨"Alice", ["0987654321"], none⟩ h2 (by decide) (by decide)⟩

/-! ## Claim C10 -/

/-- C10 counterexample: the claim quantifies over *every* book, but in a
book that already holds a record keyed "alice", looking up "alice" after
adding a contact as "Alice" returns the pre-existing record's data, not a
missing-contact result. -/
theorem case_sensitive_lookup_cex :
    show_phone ["alice"]
      (add_contact ["Alice", "2222222222"]
        (add_contact ["alice", "1111111111"] ⟨[]⟩).2).2 = "1111111111" ∧
    ("1111111111" : String) ≠ "Contact not found." := by decide

/-- C10 (amended): contact-name matching is case-sensitive while the
command word is case-insensitive.  `parse_input` lowercases only the first
token and passes the arguments through unchanged, and the book is keyed by
the exact name string: for every book with no record keyed "alice", after
adding a contact as "Alice" a lookup of "alice" through any
contact-lookup handler yields the missing-contact result. -/
theorem case_sensitive_name_matching :
    parse_input "ADD Alice 1234567890" = ("add", ["Alice", "1234567890"]) ∧
    ∀ (book : AddressBook) (p x y d : String),
      AddressBook.find book "alice" = none → validPhone p = true →
      (AddressBook.find (add_contact ["Alice", p] book).2 "alice" = none ∧
       show_phone ["alice"] (add_contact ["Alice", p] book).2 = "Contact not found." ∧
       change_contact ["alice", x, y] (add_contact ["Alice", p] book).2
         = ("Contact not found.", (add_contact ["Alice", p] book).2) ∧
       show_birthday ["alice"] (add_contact ["Alice", p] book).2 = "Contact not found." ∧
       add_birthday ["alice", d] (add_contact ["Alice", p] book).2
         = ("Contact not found.", (add_contact ["Alice", p] book).2)) := by
  refine ⟨by decide, fun book p x y d habs hp => ?_⟩
  have hafind : AddressBook.find (add_contact ["Alice", p] book).2 "alice" = none := by
    show AddressBook.find (addContactRaw ["Alice", p] book).2 "alice" = none
    rcases hA : AddressBook.find book "Alice" with _ | r
    · rw [addContactRaw_new book "Alice" p (by decide) hA hp]
      show getKey (setKey (setKey book.data "Alice" _) "Alice" _) "alice" = none
      rw [getKey_setKey_ne _ _ _ _ (by decide), getKey_setKey_ne _ _ _ _ (by decide)]
      exact habs
    · rw [addContactRaw_found book "Alice" p r hA hp]
      show getKey (setKey book.data "Alice" _) "alice" = none
      rw [getKey_setKey_ne _ _ _ _ (by decide)]
      exact habs
  have ec : changeContactRaw ["alice", x, y] (add_contact ["Alice", p] book).2
      = (.ok "Contact not found.", (add_contact ["Alice", p] book).2) := by
    simp [changeContactRaw, hafind]
  have eb : addBirthdayRaw ["alice", d] (add_contact ["Alice", p] book).2
      = (.ok "Contact not found.", (add_contact ["Alice", p] book).2) := by
    simp [addBirthdayRaw, hafind]
  refine ⟨hafind, ?_, ?_, ?_, ?_⟩
  · simp [show_phone, hafind, handleInputError]
  · show (handleInputError
        (changeContactRaw ["alice", x, y] (add_contact ["Alice", p] book).2).1,
      (changeContactRaw ["alice", x, y] (add_contact ["Alice", p] book).2).2) = _
    rw [ec]
    rfl
  · simp [show_birthday, hafind, handleInputError]
  · show (handleInputError
        (addBirthdayRaw ["alice", d] (add_contact ["Alice", p] book).2).1,
      (addBirthdayRaw ["alice", d] (add_contact ["Alice", p] book).2).2) = _
    rw [eb]
    rfl

/-- C10 witness: the amended theorem applied to the empty book. -/
theorem case_sensitive_name_matching_witness :
    AddressBook.find (add_contact ["Alice", "1234567890"] ⟨[]⟩).2 "alice" = none ∧
    show_phone ["alice"] (add_contact ["Alice", "1234567890"] ⟨[]⟩).2
      = "Contact not found." ∧
    change_contact ["alice", "1234567890", "0987654321"]
        (add_contact ["Alice", "1234567890"] ⟨[]⟩).2
      = ("Contact not found.", (add_contact ["Alice", "1234567890"] ⟨[]⟩).2) ∧
    show_birthday ["alice"] (add_contact ["Alice", "1234567890"] ⟨[]⟩).2
      = "Contact not found." ∧
    add_birthday ["alice", "15.06.1990"] (add_contact ["Alice", "1234567890"] ⟨[]⟩).2
      = ("Contact not found.", (add_contact ["Alice", "1234567890"] ⟨[]⟩).2) :=
  case_sensitive_name_matching.2 ⟨[]⟩ "1234567890" "1234567890" "0987654321"
    "15.06.1990" (by decide) (by decide)

/-! ## Claim C1 -/

/-- A successful pass of the `get_upcoming_birthdays` loop collects exactly
the records satisfying the unadjusted-delta window test. -/
theorem upcomingGo_ok_filter (today : Date) (rs : List Record) (l : List Record)
    (h : upcomingGo today rs = .ok l) : l = rs.filter (upcomingPred today) := by
  induction rs generalizing l with
  | nil =>
    simp only [upcomingGo] at h
    injection h with h2
    subst h2
    rfl
  | cons r rs ih =>
    rcases hb : r.birthday with _ | b
    · simp only [upcomingGo, hb] at h
      have hpred : upcomingPred today r = false := by simp [upcomingPred, hb]
      rw [List.filter_cons, hpred]
      exact ih l h
    · rcases hn : nextOccurrence b today with _ | bd
      · simp only [upcomingGo, hb, hn] at h
        exact Except.noConfusion h
      · simp only [upcomingGo, hb, hn] at h
        rcases hrec : upcomingGo today rs with e | rest
        · rw [hrec] at h
          cases h
        · rw [hrec] at h
          injection h with h2
          subst h2
          rw [List.filter_cons]
          by_cases hc : 0 ≤ deltaDays bd today ∧ deltaDays bd today ≤ 7
          · have hpred : upcomingPred today r = true := by
              simp [upcomingPred, hb, hn, hc.1, hc.2]
            rw [if_pos hc, hpred]
            simp [ih rest hrec]
          · have hpred : upcomingPred today r = false := by
              rcases not_and_or.mp hc with h1 | h1 <;> simp [upcomingPred, hb, hn, h1]
            rw [if_neg hc, hpred]
            simp [ih rest hrec]

/-- C1: whenever `get_upcoming_birthdays` returns a list, a record with a
birthday is included iff the next occurrence of that birthday (year
replaced by the current year, advanced to the next year if already past)
lies within `[today, today+7]` days inclusive — the test uses the
unadjusted occurrence date; the weekend-shifted greeting date is computed
in the loop but never affects inclusion. -/
theorem upcoming_inclusion_unadjusted_window (book : AddressBook) (today : Date)
    (l : List Record) (r : Record) (b : Date)
    (hok : getUpcomingBirthdays book today = .ok l)
    (hr : r ∈ book.values) (hb : r.birthday = some b) :
    r ∈ l ↔ ∃ bd, nextOccurrence b today = some bd ∧
      0 ≤ deltaDays bd today ∧ deltaDays bd today ≤ 7 := by
  have hfil := upcomingGo_ok_filter today book.values l hok
  subst hfil
  rw [List.mem_filter]
  constructor
  · rintro ⟨-, hpred⟩
    simp only [upcomingPred, hb] at hpred
    rcases hn : nextOccurrence b today with _ | bd
    · rw [hn] at hpred
      cases hpred
    · rw [hn] at hpred
      simp only [Bool.and_eq_true, decide_eq_true_eq] at hpred
      exact ⟨bd, rfl, hpred.1, hpred.2⟩
  · rintro ⟨bd, hn, h0, h7⟩
    exact ⟨hr, by simp [upcomingPred, hb, hn, h0, h7]⟩

/-- C1 witness: a birthday whose next occurrence is three days away is
included. -/
theorem upcoming_inclusion_unadjusted_window_witness :
    getUpcomingBirthdays ⟨[("Alice", ⟨"Alice", [], some ⟨1990, 6, 18⟩⟩)]⟩ ⟨2023, 6, 15⟩
      = .ok [⟨"Alice", [], some ⟨1990, 6, 18⟩⟩] ∧
    (⟨"Alice", [], some ⟨1990, 6, 18⟩⟩ : Record) ∈
      AddressBook.values ⟨[("Alice", ⟨"Alice", [], some ⟨1990, 6, 18⟩⟩)]⟩ ∧
    ((⟨"Alice", [], some ⟨1990, 6, 18⟩⟩ : Record) ∈
        [(⟨"Alice", [], some ⟨1990, 6, 18⟩⟩ : Record)] ↔
      ∃ bd, nextOccurrence ⟨1990, 6, 18⟩ ⟨2023, 6, 15⟩ = some bd ∧
        0 ≤ deltaDays bd ⟨2023, 6, 15⟩ ∧ deltaDays bd ⟨2023, 6, 15⟩ ≤ 7) :=
  ⟨by decide, by decide,
    upcoming_inclusion_unadjusted_window
      ⟨[("Alice", ⟨"Alice", [], some ⟨1990, 6, 18⟩⟩)]⟩ ⟨2023, 6, 15⟩
      [⟨"Alice", [], some ⟨1990, 6, 18⟩⟩] ⟨"Alice", [], some ⟨1990, 6, 18⟩⟩
      ⟨1990, 6, 18⟩ (by decide) (by decide) rfl⟩

/-! ## Claim C8 -/

theorem snd_mem_setKey (data : List (String × Record)) (k : String) (r x : Record)
    (hx : x ∈ (setKey data k r).map Prod.snd) : x = r ∨ x ∈ data.map Prod.snd := by
  induction data with
  | nil =>
    simp [setKey] at hx
    exact Or.inl hx
  | cons hd tl ih =>
    obtain ⟨k1, r1⟩ := hd
    by_cases hk : k1 = k
    · simp only [setKey, if_pos hk, List.map_cons, List.mem_cons] at hx
      rcases hx with rfl | hm
      · exact Or.inl rfl
      · exact Or.inr (List.mem_cons_of_mem _ hm)
    · simp only [setKey, if_neg hk, List.map_cons, List.mem_cons] at hx
      rcases hx with rfl | hm
      · exact Or.inr (List.mem_cons_self _ _)
      · rcases ih hm with h1 | h2
        · exact Or.inl h1
        · exact Or.inr (List.mem_cons_of_mem _ h2)

theorem snd_mem_delKey (data : List (String × Record)) (n : String) (x : Record)
    (hx : x ∈ (delKey data n).map Prod.snd) : x ∈ data.map Prod.snd := by
  induction data with
  | nil => simpa [delKey] using hx
  | cons hd tl ih =>
    obtain ⟨k1, r1⟩ := hd
    by_cases hk : k1 = n
    · simp only [delKey, if_pos hk] at hx
      exact List.mem_cons_of_mem _ hx
    · simp only [delKey, if_neg hk, List.map_cons, List.mem_cons] at hx
      rcases hx with rfl | hm
      · exact List.mem_cons_self _ _
      · exact List.mem_cons_of_mem _ (ih hm)

theorem getKey_some_mem (data : List (String × Record)) (n : String) (r : Record)
    (h : getKey data n = some r) : r ∈ data.map Prod.snd := by
  induction data with
  | nil => cases h
  | cons hd tl ih =>
    obtain ⟨k1, r1⟩ := hd
    by_cases hk : k1 = n
    · simp only [getKey, if_pos hk, Option.some.injEq] at h
      subst h
      exact List.mem_cons_self _ _
    · simp only [getKey, if_neg hk] at h
      exact List.mem_cons_of_mem _ (ih h)

theorem mem_eraseFirst (ps : List String) (y x : String) (hx : x ∈ eraseFirst ps y) :
    x ∈ ps := by
  induction ps with
  | nil => simpa [eraseFirst] using hx
  | cons p ps ih =>
    by_cases hp : p = y
    · simp only [eraseFirst, if_pos hp] at hx
      exact List.mem_cons_of_mem _ hx
    · simp only [eraseFirst, if_neg hp, List.mem_cons] at hx
      rcases hx with rfl | hm
      · exact List.mem_cons_self _ _
      · exact List.mem_cons_of_mem _ (ih hm)

theorem editList_ok_valid (old new : String) (ps qs : List String)
    (h : editList old new ps = .ok qs) (hv : ∀ p ∈ ps, validPhone p = true) :
    ∀ q ∈ qs, validPhone q = true := by
  induction ps generalizing qs with
  | nil =>
    injection h with h2
    subst h2
    simp
  | cons p ps ih =>
    by_cases hp : p = old
    · simp only [editList, if_pos hp] at h
      rcases hmk : mkPhone new with e | v
      · rw [hmk] at h
        cases h
      · rw [hmk] at h
        injection h with h2
        subst h2
        obtain ⟨rfl, hvnew⟩ := mkPhone_ok_eq hmk
        intro q hq
        rcases List.mem_cons.mp hq with rfl | hm
        · exact hvnew
        · exact hv q (List.mem_cons_of_mem _ hm)
    · simp only [editList, if_neg hp] at h
      rcases he : editList old new ps with e | qs1
      · rw [he] at h
        cases h
      · rw [he] at h
        injection h with h2
        subst h2
        intro q hq
        rcases List.mem_cons.mp hq with rfl | hm
        · exact hv q (List.mem_cons_self _ _)
        · exact ih qs1 he (fun p1 hp1 => hv p1 (List.mem_cons_of_mem _ hp1)) q hm

theorem add_contact_preserves_valid (book : AddressBook) (args : List String)
    (h : BookValid book) : BookValid (add_contact args book).2 := by
  show BookValid (addContactRaw args book).2
  rcases args with _ | ⟨name, args1⟩
  · exact h
  rcases args1 with _ | ⟨phone, rest⟩
  · exact h
  rcases hf : AddressBook.find book name with _ | r
  · by_cases hname : name = ""
    · subst hname
      have he : (addContactRaw ("" :: phone :: rest) book).2 = book := by
        simp [addContactRaw, hf, mkRecord]
      rw [he]
      exact h
    · by_cases hph : phone = ""
      · have he : (addContactRaw (name :: phone :: rest) book).2
            = ⟨setKey book.data name ⟨name, [], none⟩⟩ := by
          simp [addContactRaw, hf, mkRecord, hname, hph, AddressBook.add_record]
        rw [he]
        intro x hx
        rcases snd_mem_setKey book.data name ⟨name, [], none⟩ x hx with rfl | hm
        · intro p hp
          simp at hp
        · exact h x hm
      · rcases hmk : mkPhone phone with e | v
        · have he : (addContactRaw (name :: phone :: rest) book).2
              = ⟨setKey book.data name ⟨name, [], none⟩⟩ := by
            simp [addContactRaw, hf, mkRecord, hname, hph, hmk, AddressBook.add_record]
          rw [he]
          intro x hx
          rcases snd_mem_setKey book.data name ⟨name, [], none⟩ x hx with rfl | hm
          · intro p hp
            simp at hp
          · exact h x hm
        · have hveq := (mkPhone_ok_eq hmk).1
          have hvv := (mkPhone_ok_eq hmk).2
          have he : (addContactRaw (name :: phone :: rest) book).2
              = ⟨setKey (setKey book.data name ⟨name, [], none⟩) name
                  ⟨name, [phone], none⟩⟩ := by
            simp [addContactRaw, hf, mkRecord, hname, hph, hmk, hveq,
              AddressBook.add_record]
          rw [he]
          intro x hx
          rcases snd_mem_setKey _ name ⟨name, [phone], none⟩ x hx with rfl | hm
          · intro p hp
            simp only [List.mem_singleton] at hp
            subst hp
            exact hvv
          · rcases snd_mem_setKey book.data name ⟨name, [], none⟩ x hm with rfl | hm2
            · intro p hp
              simp at hp
            · exact h x hm2
  · by_cases hph : phone = ""
    · have he : (addContactRaw (name :: phone :: rest) book).2 = book := by
        simp [addContactRaw, hf, hph]
      rw [he]
      exact h
    · rcases hmk : mkPhone phone with e | v
      · have he : (addContactRaw (name :: phone :: rest) book).2 = book := by
          simp [addContactRaw, hf, hph, hmk]
        rw [he]
        exact h
      · have hveq := (mkPhone_ok_eq hmk).1
        have hvv := (mkPhone_ok_eq hmk).2
        have hrv : RecordValid r := h r (getKey_some_mem book.data name r hf)
        have he : (addContactRaw (name :: phone :: rest) book).2
            = ⟨setKey book.data name { r with phones := r.phones ++ [phone] }⟩ := by
          simp [addContactRaw, hf, hph, hmk, hveq]
        rw [he]
        intro x hx
        rcases snd_mem_setKey book.data name _ x hx with rfl | hm
        · intro p hp
          rcases List.mem_append.mp hp with h1 | h2
          · exact hrv p h1
          · simp only [List.mem_singleton] at h2
            subst h2
            exact hvv
        · exact h x hm

theorem change_contact_preserves_valid (book : AddressBook) (args : List String)
    (h : BookValid book) : BookValid (change_contact args book).2 := by
  show BookValid (changeContactRaw args book).2
  rcases args with _ | ⟨a, _ | ⟨b, _ | ⟨c, _ | ⟨d, tl⟩⟩⟩⟩
  · exact h
  · exact h
  · exact h
  case cons.cons.cons.nil =>
    rcases hf : AddressBook.find book a with _ | r
    · have he : (changeContactRaw [a, b, c] book).2 = book := by
        simp [changeContactRaw, hf]
      rw [he]
      exact h
    · rcases hedit : Record.edit_phone r b c with e | r1
      · have he : (changeContactRaw [a, b, c] book).2 = book := by
          simp [changeContactRaw, hf, hedit]
        rw [he]
        exact h
      · have hrv : RecordValid r := h r (getKey_some_mem book.data a r hf)
        have hr1 : RecordValid r1 := by
          unfold Record.edit_phone at hedit
          rcases he2 : editList b c r.phones with e | qs
          · rw [he2] at hedit
            cases hedit
          · rw [he2] at hedit
            injection hedit with h3
            subst h3
            intro p hp
            exact editList_ok_valid b c r.phones qs he2 hrv p hp
        have he : (changeContactRaw [a, b, c] book).2 = ⟨setKey book.data a r1⟩ := by
          simp [changeContactRaw, hf, hedit]
        rw [he]
        intro x hx
        rcases snd_mem_setKey book.data a r1 x hx with rfl | hm
        · exact hr1
        · exact h x hm
  · exact h

/-- C8: the 10-digit phone invariant is preserved by every operation.  An
invalid phone value is rejected by the `Phone` constructor before any list
or book is touched, so `add_contact`, `change_contact`, `add_phone`,
`edit_phone`, `remove_phone`, `add_record` (of a valid record) and
`delete` all map books/records whose stored phones are valid to
books/records whose stored phones are valid. -/
theorem phone_invariant_preserved :
    (∀ (book : AddressBook) (args : List String), BookValid book →
      BookValid (add_contact args book).2) ∧
    (∀ (book : AddressBook) (args : List String), BookValid book →
      BookValid (change_contact args book).2) ∧
    (∀ (r : Record) (p : String) (r1 : Record), RecordValid r →
      Record.add_phone r p = .ok r1 → RecordValid r1) ∧
    (∀ (r : Record) (old new : String) (r1 : Record), RecordValid r →
      Record.edit_phone r old new = .ok r1 → RecordValid r1) ∧
    (∀ (r : Record) (p : String), RecordValid r →
      RecordValid (Record.remove_phone r p)) ∧
    (∀ (book : AddressBook) (r : Record), BookValid book → RecordValid r →
      BookValid (AddressBook.add_record book r)) ∧
    (∀ (book : AddressBook) (n : String), BookValid book →
      BookValid (AddressBook.delete book n)) := by
  refine ⟨add_contact_preserves_valid, change_contact_preserves_valid,
    ?_, ?_, ?_, ?_, ?_⟩
  · intro r p r1 hrv hok
    unfold Record.add_phone at hok
    rcases hmk : mkPhone p with e | v
    · rw [hmk] at hok
      cases hok
    · rw [hmk] at hok
      injection hok with h2
      subst h2
      obtain ⟨rfl, hvp⟩ := mkPhone_ok_eq hmk
      intro q hq
      rcases List.mem_append.mp hq with h1 | h2
      · exact hrv q h1
      · simp only [List.mem_singleton] at h2
        subst h2
        exact hvp
  · intro r old new r1 hrv hok
    unfold Record.edit_phone at hok
    rcases he2 : editList old new r.phones with e | qs
    · rw [he2] at hok
      cases hok
    · rw [he2] at hok
      injection hok with h2
      subst h2
      intro p hp
      exact editList_ok_valid old new r.phones qs he2 hrv p hp
  · intro r p hrv q hq
    exact hrv q (mem_eraseFirst r.phones p q hq)
  · intro book r hb hr x hx
    rcases snd_mem_setKey book.data r.name r x hx with rfl | hm
    · exact hr
    · exact hb x hm
  · intro book n hb x hx
    exact hb x (snd_mem_delKey book.data n x hx)

/-- C8 witness: the add-contact and add-record conjuncts applied to the
empty book, and the record-level conjuncts applied to concrete records. -/
theorem phone_invariant_preserved_witness :
    BookValid (add_contact ["Alice", "1234567890"] ⟨[]⟩).2 ∧
    BookValid (change_contact ["Alice", "1234567890", "0987654321"]
      (add_contact ["Alice", "1234567890"] ⟨[]⟩).2).2 ∧
    RecordValid (Record.remove_phone ⟨"Alice", ["1234567890"], none⟩ "1234567890") :=
  ⟨phone_invariant_preserved.1 ⟨[]⟩ ["Alice", "1234567890"] (by decide),
   phone_invariant_preserved.2.1 _ ["Alice", "1234567890", "0987654321"]
     (phone_invariant_preserved.1 ⟨[]⟩ ["Alice", "1234567890"] (by decide)),
   phone_invariant_preserved.2.2.2.2.1 ⟨"Alice", ["1234567890"], none⟩ "1234567890"
     (by decide)⟩

/-! ## Claim C7 -/

theorem splitOnDot_ne_nil (cs : List Char) : splitOnDot cs ≠ [] := by
  cases cs with
  | nil => simp [splitOnDot]
  | cons c cs =>
    by_cases hc : c = '.'
    · simp [splitOnDot, hc]
    · simp only [splitOnDot, if_neg hc]
      rcases splitOnDot cs with _ | ⟨t, ts⟩ <;> simp

theorem joinParts_splitOnDot (cs : List Char) : joinParts (splitOnDot cs) = cs := by
  induction cs with
  | nil => rfl
  | cons c cs ih =>
    by_cases hc : c = '.'
    · subst hc
      simp only [splitOnDot, if_pos rfl]
      rcases hs : splitOnDot cs with _ | ⟨t, ts⟩
      · exact absurd hs (splitOnDot_ne_nil cs)
      · rw [hs] at ih
        show [] ++ '.' :: joinParts (t :: ts) = '.' :: cs
        rw [ih]
        rfl
    · simp only [splitOnDot, if_neg hc]
      rcases hs : splitOnDot cs with _ | ⟨t, ts⟩
      · exact absurd hs (splitOnDot_ne_nil cs)
      · rw [hs] at ih
        rcases ts with _ | ⟨t2, ts2⟩
        · show c :: t = c :: cs
          rw [show joinParts [t] = t from rfl] at ih
          rw [ih]
        · show (c :: t) ++ '.' :: joinParts (t2 :: ts2) = c :: cs
          rw [show joinParts (t :: t2 :: ts2) = t ++ '.' :: joinParts (t2 :: ts2) from rfl]
            at ih
          rw [← ih]
          rfl

theorem digit_bounds (c : Char) (h : isAsciiDigit c = true) :
    48 ≤ c.toNat ∧ c.toNat ≤ 57 := by
  simpa [isAsciiDigit, Bool.and_eq_true, decide_eq_true_eq] using h

theorem digitChar_toNat (c : Char) (h : isAsciiDigit c = true) :
    digitChar (c.toNat - 48) = c := by
  obtain ⟨h1, -⟩ := digit_bounds c h
  unfold digitChar
  rw [show 48 + (c.toNat - 48) = c.toNat by omega, Char.ofNat_toNat]

theorem char_eq_z_of_toNat (c : Char) (h : c.toNat = 48) : c = '0' := by
  have := Char.ofNat_toNat c
  rw [h] at this
  exact this.symm

theorem pad2_natOfDigits (a b : Char) (ha : isAsciiDigit a = true)
    (hb : isAsciiDigit b = true) : pad2 (natOfDigits [a, b]) = [a, b] := by
  obtain ⟨ha1, ha2⟩ := digit_bounds a ha
  obtain ⟨hb1, hb2⟩ := digit_bounds b hb
  have hval : natOfDigits [a, b] = 10 * (a.toNat - 48) + (b.toNat - 48) := by
    simp only [natOfDigits, List.foldl_cons, List.foldl_nil]
    omega
  unfold pad2
  rw [hval]
  rw [show (10 * (a.toNat - 48) + (b.toNat - 48)) / 10 = a.toNat - 48 by omega]
  rw [show (10 * (a.toNat - 48) + (b.toNat - 48)) % 10 = b.toNat - 48 by omega]
  rw [digitChar_toNat a ha, digitChar_toNat b hb]

theorem render4_natOfDigits (a b c d : Char) (ha : isAsciiDigit a = true)
    (hb : isAsciiDigit b = true) (hc : isAsciiDigit c = true)
    (hd : isAsciiDigit d = true) :
    render4 (natOfDigits [a, b, c, d]) = [a, b, c, d] := by
  obtain ⟨ha1, ha2⟩ := digit_bounds a ha
  obtain ⟨hb1, hb2⟩ := digit_bounds b hb
  obtain ⟨hc1, hc2⟩ := digit_bounds c hc
  obtain ⟨hd1, hd2⟩ := digit_bounds d hd
  have hval : natOfDigits [a, b, c, d] =
      1000 * (a.toNat - 48) + 100 * (b.toNat - 48) + 10 * (c.toNat - 48)
        + (d.toNat - 48) := by
    simp only [natOfDigits, List.foldl_cons, List.foldl_nil]
    omega
  unfold render4
  rw [hval]
  rw [show (1000 * (a.toNat - 48) + 100 * (b.toNat - 48) + 10 * (c.toNat - 48)
    + (d.toNat - 48)) / 1000 = a.toNat - 48 by omega]
  rw [show (1000 * (a.toNat - 48) + 100 * (b.toNat - 48) + 10 * (c.toNat - 48)
    + (d.toNat - 48)) / 100 % 10 = b.toNat - 48 by omega]
  rw [show (1000 * (a.toNat - 48) + 100 * (b.toNat - 48) + 10 * (c.toNat - 48)
    + (d.toNat - 48)) / 10 % 10 = c.toNat - 48 by omega]
  rw [show (1000 * (a.toNat - 48) + 100 * (b.toNat - 48) + 10 * (c.toNat - 48)
    + (d.toNat - 48)) % 10 = d.toNat - 48 by omega]
  rw [digitChar_toNat a ha, digitChar_toNat b hb, digitChar_toNat c hc,
    digitChar_toNat d hd]

theorem natOfDigits4_ge_1000 (a b c d : Char) (ha : isAsciiDigit a = true)
    (hb : isAsciiDigit b = true) (hc : isAsciiDigit c = true)
    (hd : isAsciiDigit d = true) (h0 : a ≠ '0') :
    1000 ≤ natOfDigits [a, b, c, d] := by
  obtain ⟨ha1, ha2⟩ := digit_bounds a ha
  obtain ⟨hb1, hb2⟩ := digit_bounds b hb
  obtain ⟨hc1, hc2⟩ := digit_bounds c hc
  obtain ⟨hd1, hd2⟩ := digit_bounds d hd
  have hne : a.toNat ≠ 48 := fun he => h0 (char_eq_z_of_toNat a he)
  have hval : natOfDigits [a, b, c, d] =
      1000 * (a.toNat - 48) + 100 * (b.toNat - 48) + 10 * (c.toNat - 48)
        + (d.toNat - 48) := by
    simp only [natOfDigits, List.foldl_cons, List.foldl_nil]
    omega
  omega

theorem length_eq_four_list {α : Type} {l : List α} (h : l.length = 4) :
    ∃ a b c d, l = [a, b, c, d] := by
  rcases l with _ | ⟨a, _ | ⟨b, _ | ⟨c, _ | ⟨d, _ | ⟨e, l⟩⟩⟩⟩⟩ <;>
    simp only [List.length_cons, List.length_nil] at h
  · omega
  · omega
  · omega
  · omega
  · exact ⟨a, b, c, d, rfl⟩
  · omega

theorem parseField2_some (cs : List Char) (hi v : Nat)
    (h : parseField2 cs hi = some v) :
    cs.all isAsciiDigit = true ∧ natOfDigits cs = v ∧
      (cs.length = 1 ∨ cs.length = 2) ∧ 1 ≤ v ∧ v ≤ hi := by
  unfold parseField2 at h
  split at h
  next h1 =>
    change (if (decide (1 ≤ natOfDigits cs) && decide (natOfDigits cs ≤ hi)) = true
      then some (natOfDigits cs) else none) = some v at h
    split at h
    next h2 =>
      injection h with h3
      simp only [Bool.and_eq_true, Bool.or_eq_true, decide_eq_true_eq] at h1 h2
      exact ⟨h1.2, h3, h1.1, h3 ▸ h2.1, h3 ▸ h2.2⟩
    next => cases h
  next => cases h

theorem parseField4_some (cs : List Char) (v : Nat) (h : parseField4 cs = some v) :
    cs.all isAsciiDigit = true ∧ natOfDigits cs = v ∧ cs.length = 4 := by
  unfold parseField4 at h
  split at h
  next h1 =>
    injection h with h3
    simp only [Bool.and_eq_true, decide_eq_true_eq] at h1
    exact ⟨h1.2, h3, h1.1⟩
  next => cases h

/-- C7 counterexample: `strptime("%d.%m.%Y")` accepts a single-digit day,
so "5.06.1990" is accepted by the `Birthday` constructor, but `strftime`
re-renders it zero-padded as "05.06.1990" — the round-trip is not exact
for every accepted string. -/
theorem birthday_roundtrip_unpadded_cex :
    mkBirthday "5.06.1990" = .ok ⟨1990, 6, 5⟩ ∧
    renderDMY ⟨1990, 6, 5⟩ = "05.06.1990" ∧
    ("05.06.1990" : String) ≠ "5.06.1990" := by decide

/-- C7 (amended): for every string accepted by the `Birthday` constructor
that is already in the zero-padded canonical form (two-digit day,
two-digit month, four-digit year with no leading zero), rendering the
stored date yields the string back exactly; accepted strings with
unpadded day or month re-render in the padded form instead.  In
particular `str(Birthday("15.06.1990")) = "15.06.1990"`. -/
theorem birthday_roundtrip_canonical (s : String) (d : Date)
    (hok : mkBirthday s = .ok d) (hcan : isCanonicalDMY s = true) :
    renderDMY d = s := by
  unfold mkBirthday at hok
  rcases hp : parseDMY s.data with _ | d0
  · rw [hp] at hok
    cases hok
  rw [hp] at hok
  injection hok with h2
  subst h2
  unfold parseDMY at hp
  unfold isCanonicalDMY at hcan
  rcases hsplit : splitOnDot s.data with _ | ⟨ds, _ | ⟨ms, _ | ⟨ys, _ | ⟨e4, tl4⟩⟩⟩⟩ <;>
    rw [hsplit] at hp hcan
  · exact Option.noConfusion hp
  · exact Option.noConfusion hp
  · exact Option.noConfusion hp
  case cons.cons.cons.cons => exact Option.noConfusion hp
  case cons.cons.cons.nil =>
  have hp2 : parseDMYparts ds ms ys = some d0 := hp
  have hcan2 : isCanonicalParts ds ms ys = true := hcan
  unfold parseDMYparts at hp2
  rcases hd : parseField2 ds 31 with _ | dayv <;> rw [hd] at hp2
  · exact Option.noConfusion hp2
  rcases hm : parseField2 ms 12 with _ | monv <;> rw [hm] at hp2
  · exact Option.noConfusion hp2
  rcases hy : parseField4 ys with _ | yv <;> rw [hy] at hp2
  · exact Option.noConfusion hp2
  have hp3 : (if (decide (1 ≤ yv) && decide (dayv ≤ daysInMonth yv monv)) = true
      then some (⟨yv, monv, dayv⟩ : Date) else none) = some d0 := hp2
  by_cases hcal : (decide (1 ≤ yv) && decide (dayv ≤ daysInMonth yv monv)) = true
  case neg =>
    rw [if_neg hcal] at hp3
    exact Option.noConfusion hp3
  case pos =>
  rw [if_pos hcal] at hp3
  injection hp3 with hp4
  subst hp4
  unfold isCanonicalParts at hcan2
  simp only [Bool.and_eq_true, decide_eq_true_eq] at hcan2
  obtain ⟨⟨⟨hdl2, hml2⟩, hyl4⟩, hhead⟩ := hcan2
  obtain ⟨a1, a2, rfl⟩ := List.length_eq_two.mp hdl2
  obtain ⟨b1, b2, rfl⟩ := List.length_eq_two.mp hml2
  obtain ⟨c1, c2, c3, c4, rfl⟩ := length_eq_four_list hyl4
  have hc10 : c1 ≠ '0' := of_decide_eq_true hhead
  obtain ⟨hdall, hdval, hdlen, hd1, hd31⟩ := parseField2_some [a1, a2] 31 dayv hd
  obtain ⟨hmall, hmval, hmlen, hm1, hm12⟩ := parseField2_some [b1, b2] 12 monv hm
  obtain ⟨hyall, hyval, hylen⟩ := parseField4_some [c1, c2, c3, c4] yv hy
  simp only [List.all_cons, List.all_nil, Bool.and_eq_true, and_true]
    at hdall hmall hyall
  obtain ⟨ha1, ha2⟩ := hdall
  obtain ⟨hb1, hb2⟩ := hmall
  obtain ⟨hc1, hc2, hc3, hc4⟩ := hyall
  have hyge : 1000 ≤ yv := hyval ▸ natOfDigits4_ge_1000 c1 c2 c3 c4 hc1 hc2 hc3 hc4 hc10
  unfold renderDMY
  show String.mk (pad2 dayv ++ '.' :: pad2 monv ++ '.' :: renderY yv) = s
  rw [← hdval, ← hmval, ← hyval]
  rw [pad2_natOfDigits a1 a2 ha1 ha2, pad2_natOfDigits b1 b2 hb1 hb2]
  have hnl : ¬ natOfDigits [c1, c2, c3, c4] < 1000 := by
    rw [hyval]
    omega
  have hrY : renderY (natOfDigits [c1, c2, c3, c4])
      = render4 (natOfDigits [c1, c2, c3, c4]) := by
    unfold renderY
    rw [if_neg hnl]
  rw [hrY, render4_natOfDigits c1 c2 c3 c4 hc1 hc2 hc3 hc4]
  have hjoin := joinParts_splitOnDot s.data
  rw [hsplit] at hjoin
  rw [show joinParts [[a1, a2], [b1, b2], [c1, c2, c3, c4]]
    = [a1, a2] ++ '.' :: [b1, b2] ++ '.' :: [c1, c2, c3, c4] from rfl] at hjoin
  rw [hjoin]

/-- C7 witness: the canonical string "15.06.1990" parses and renders back
to itself. -/
theorem birthday_roundtrip_canonical_witness :
    mkBirthday "15.06.1990" = .ok ⟨1990, 6, 15⟩ ∧
    isCanonicalDMY "15.06.1990" = true ∧
    renderDMY ⟨1990, 6, 15⟩ = "15.06.1990" :=
  ⟨by decide, by decide,
    birthday_roundtrip_canonical "15.06.1990" ⟨1990, 6, 15⟩ (by decide) (by decide)⟩

end Hw8
